import Mathlib

/-!
Shallow embedding of the 2D-to-3D hull lofting and curve-reconstruction
pipeline of this repository (src/model_3d_generator.py, src/line_2d_generator.py,
src/line_interaction.py, data model in src/core/hull_interface.py).

Coordinates are modelled as rationals (ℚ); the Python code computes with
IEEE floats, but every claim under scrutiny is an exact arithmetic /
structural statement, so exact rational arithmetic is the faithful
idealisation.  Python lists become Lean lists, dicts become association
lists, exceptions become Except String.
-/

/-- Half of a 2D point list: pairs of rational coordinates. -/
abbrev PointList : Type := List (ℚ × ℚ)

/-- The epsilon 1e-10 used by the curve reconstructor's duplicate collapse
and loop-closure tests. -/
def eps10 : ℚ := 1 / 10 ^ 10

/-- Python sorted(key = first coordinate): a stable sort by abscissa.
Mathlib's insertionSort is stable, matching Python's Timsort extensionally. -/
def sortByFst (l : PointList) : PointList :=
  List.insertionSort (fun p q => p.1 ≤ q.1) l

/-- numpy np.linspace a b n: n evenly spaced samples, endpoints included
(n is 100 everywhere in this code base, so the n ≥ 2 formula applies). -/
def np_linspace (a b : ℚ) (n : Nat) : List ℚ :=
  (List.range n).map (fun (i : Nat) => a + (b - a) * (i : ℚ) / ((n : ℚ) - 1))

/-- numpy np.interp x xp fp with the knots zipped into one pair list:
piecewise-linear interpolation, holding the boundary values constant
outside the sampled range (numpy does NOT extrapolate by default).
Faithful to numpy for (strictly) increasing knot abscissas, which is
numpy's documented precondition. -/
def np_interp (x : ℚ) : PointList → ℚ
  | [] => 0
  | [p] => p.2
  | p :: q :: rest =>
    if x ≤ p.1 then p.2
    else if x ≤ q.1 then p.2 + (q.2 - p.2) / (q.1 - p.1) * (x - p.1)
    else np_interp x (q :: rest)

/-- Python min over a nonempty list (0 default is never reached by callers). -/
def listMin : List ℚ → ℚ
  | [] => 0
  | x :: xs => xs.foldl min x

/-- Python max over a nonempty list (0 default is never reached by callers). -/
def listMax : List ℚ → ℚ
  | [] => 0
  | x :: xs => xs.foldl max x

/-- hull_interface.HullBasicParams (fields Loa and param_source omitted as
they are never read by the lofting core). -/
structure HullBasicParams where
  Lpp : ℚ
  B : ℚ
  D : ℚ
  T : ℚ
  Delta : ℚ

/-- hull_interface.Hull2DLineData: the 2D lines container.  cross_sections
is a dict from station x to the station's (y, z) outline, modelled as an
association list. -/
structure Hull2DLineData where
  side_profile : PointList
  half_breadth : PointList
  cross_sections : List (ℚ × PointList)
  line_version : Nat

/-- hull_interface.Hull3DWireframeData: vertices, edge index pairs and the
version copied from the 2D data. -/
structure Hull3DWireframeData where
  vertices : List (ℚ × ℚ × ℚ)
  edges : List (Nat × Nat)
  model_version : Nat

/-- hull_interface.InteractionEvent. -/
structure InteractionEvent where
  event_type : String
  line_type : String
  target_point_idx : Nat
  new_coords : ℚ × ℚ
  cross_section_x : Option ℚ

/-- Bool test that a list of abscissas is non-decreasing, mirroring
all(side_x[i] <= side_x[i+1] for i in range(len(side_x)-1)). -/
def nonDecB : List ℚ → Bool
  | [] => true
  | [_] => true
  | a :: b :: rest => decide (a ≤ b) && nonDecB (b :: rest)

/-- model_3d_generator._validate_input_data: the four fatal checks, in
source order (the half-breadth range check only logs a warning). -/
def validate_input_data (d : Hull2DLineData) : Except String Unit :=
  if d.side_profile = [] then .error "侧面轮廓数据为空"
  else if d.half_breadth = [] then .error "半宽图数据为空"
  else if d.side_profile.length < 2 then .error "侧面轮廓数据点太少,至少需要2个点"
  else if nonDecB (d.side_profile.map Prod.fst) = false then .error "侧面轮廓x坐标必须单调递增"
  else .ok ()

/-- The function built by model_3d_generator._create_interpolation_function
once the half-breadth list has been sorted: branches on the number of points
exactly as the source does (1 point constant, 2 points clamped linear,
otherwise np.interp). -/
def interpOfSorted : PointList → (ℚ → ℚ)
  | [] => fun _ => 0
  | [p] => fun _ => p.2
  | [(x1, y1), (x2, y2)] =>
    let slope := if x2 ≠ x1 then (y2 - y1) / (x2 - x1) else 0
    fun x => if x ≤ x1 then y1 else if x ≥ x2 then y2 else y1 + slope * (x - x1)
  | l => fun x => np_interp x l

/-- model_3d_generator._create_interpolation_function. -/
def create_interpolation_function (half_breadth : PointList) : Except String (ℚ → ℚ) :=
  if half_breadth = [] then .error "半宽图数据为空"
  else .ok (interpOfSorted (sortByFst half_breadth))

/-- The lofter's negative-half-breadth clamp: if y_val < 0 take abs. -/
def clampNeg (y : ℚ) : ℚ := if y < 0 then |y| else y

/-- model_3d_generator.generate_3d_wireframe: validation, interpolation,
two mirrored vertices and one transverse edge per station, then the
longitudinal edges between adjacent stations. -/
def generate_3d_wireframe (_params : HullBasicParams) (d : Hull2DLineData) :
    Except String Hull3DWireframeData :=
  match validate_input_data d with
  | .error e => .error e
  | .ok () =>
    match create_interpolation_function d.half_breadth with
    | .error e => .error e
    | .ok f =>
      let n := d.side_profile.length
      let vertices := d.side_profile.flatMap (fun p =>
        let y := clampNeg (f p.1)
        [(p.1, y, p.2), (p.1, -y, p.2)])
      let transverse := (List.range n).map (fun i => (2 * i, 2 * i + 1))
      let longitudinal :=
        if 2 ≤ n then
          (List.range (n - 1)).flatMap (fun i =>
            [(2 * i, 2 * (i + 1)), (2 * i + 1, 2 * (i + 1) + 1)])
        else []
      .ok { vertices := vertices
            edges := transverse ++ longitudinal
            model_version := d.line_version }

/-!
Curve reconstructor, src/line_interaction.py.  scipy's CubicSpline is
external numerical code; it is abstracted as a fit oracle which either
returns fitted spline functions or fails (models the except branches).
Everything downstream of the oracle is embedded from the source.
-/

/-- A CubicSpline fit oracle: fitOpen models CubicSpline(x, y, 'natural')
over deduplicated knots, fitClosed models the pair of periodic splines
(cs_x, cs_y) fitted over the uniform parameter t.  A none result models
the exception caught by the source's except branch. -/
structure FitOracle where
  fitOpen : PointList → Option (ℚ → ℚ)
  fitClosed : PointList → Option ((ℚ → ℚ) × (ℚ → ℚ))

/-- The trivial oracle whose fits always raise. -/
def noneOracle : FitOracle := ⟨fun _ => none, fun _ => none⟩

/-- The duplicate collapse of _generate_open_curve: x_unique keeps index i
exactly when x_sorted[i+1] - x_sorted[i] > 1e-10, plus the final point, so
each run of near-duplicate abscissas keeps its last element. -/
def collapseDup : PointList → PointList
  | [] => []
  | [p] => [p]
  | p :: q :: rest =>
    if q.1 - p.1 > eps10 then p :: collapseDup (q :: rest)
    else collapseDup (q :: rest)

/-- line_interaction._linear_interpolation: 100 samples of np.interp over
the control points in the order given (the source passes the original,
unsorted points). -/
def linear_interpolation (points : PointList) : PointList :=
  if points.length < 2 then points
  else
    let xs := points.map Prod.fst
    let x_curve := np_linspace (listMin xs) (listMax xs) 100
    x_curve.map (fun x => (x, np_interp x points))

/-- line_interaction._generate_open_curve, with the spline fit abstracted
by the oracle: sort, collapse duplicates, short-circuit when fewer than 2
unique abscissas remain, otherwise sample the fitted spline at 100 points
or fall back to _linear_interpolation on the ORIGINAL points. -/
def generate_open_curve (O : FitOracle) (points : PointList) : PointList :=
  let s := sortByFst points
  let u := collapseDup s
  if u.length < 2 then s
  else
    match O.fitOpen u with
    | some cs =>
      let xs := u.map Prod.fst
      (np_linspace (listMin xs) (listMax xs) 100).map (fun x => (x, cs x))
    | none => linear_interpolation points

/-- The loop-closure step shared by _generate_closed_curve and
_linear_interpolation_closed: append the first point when first and last
differ by more than 1e-10 in either coordinate. -/
def closeLoop (points : PointList) : PointList :=
  match points.head?, points.getLast? with
  | some p0, some pn =>
    if |p0.1 - pn.1| > eps10 ∨ |p0.2 - pn.2| > eps10 then points ++ [p0] else points
  | _, _ => points

/-- One segment of the closed linear fallback: 20 points at parameters
j / 20 for j = 0 .. 19 (the endpoint parameter 1 is never emitted). -/
def segmentPoints (p q : ℚ × ℚ) : PointList :=
  (List.range 20).map (fun (j : Nat) =>
    let t : ℚ := (j : ℚ) / 20
    (p.1 + t * (q.1 - p.1), p.2 + t * (q.2 - p.2)))

/-- The consecutive pairs visited by for i in range(len(points)-1). -/
def adjPairs (l : PointList) : List ((ℚ × ℚ) × (ℚ × ℚ)) :=
  l.zip l.tail

/-- line_interaction._linear_interpolation_closed: close the loop, then 20
linearly spaced points per consecutive control-point pair. -/
def linear_interpolation_closed (points : PointList) : PointList :=
  if points.length < 3 then points
  else
    let pts := closeLoop points
    (adjPairs pts).flatMap (fun pq => segmentPoints pq.1 pq.2)

/-- line_interaction._generate_closed_curve with the periodic spline fit
abstracted by the oracle: close the loop, fit the two periodic component
splines, sample 100 parameter values, or fall back to
_linear_interpolation_closed on the already-closed points. -/
def generate_closed_curve (O : FitOracle) (points : PointList) : PointList :=
  if points.length < 3 then points
  else
    let pts := closeLoop points
    match O.fitClosed pts with
    | some cs => (np_linspace 0 1 100).map (fun t => (cs.1 t, cs.2 t))
    | none => linear_interpolation_closed pts

/-- line_interaction.generate_smooth_curve: dispatch on the closed flag,
returning inputs with fewer than 2 points unchanged. -/
def generate_smooth_curve (O : FitOracle) (points : PointList) (is_closed : Bool) : PointList :=
  if points.length < 2 then points
  else if is_closed then generate_closed_curve O points
  else generate_open_curve O points

/-!
src/line_2d_generator.update_2d_lines.  Python objects: side_profile and
half_breadth are lists of immutable tuples, and list.copy() produces an
independent list, so value semantics model them exactly.  The values of
the cross_sections dict, however, are mutable list OBJECTS, and
dict.copy() is shallow: the copied dict holds references to the very same
lists.  To capture that observable aliasing, the per-station lists live in
an explicit store and the dict maps each station to a store reference. -/

/-- Heap of Python list objects, addressed by allocation index. -/
abbrev Store : Type := List PointList

/-- Dereference a Python list object (callers only use live references). -/
def storeRead (σ : Store) (r : Nat) : PointList := σ.getD r []

/-- In-place assignment to a Python list object. -/
def storeWrite (σ : Store) (r : Nat) (v : PointList) : Store := σ.set r v

/-- Hull2DLineData as a Python object graph: cross_sections maps each
station x to a reference into the store. -/
structure Hull2DLineDataObj where
  side_profile : PointList
  half_breadth : PointList
  cross_sections : List (ℚ × Nat)
  line_version : Nat

/-- Python dict lookup new_cross[x] on the reference dict. -/
def refLookup (m : List (ℚ × Nat)) (x : ℚ) : Option Nat :=
  (m.find? (fun e => decide (e.1 = x))).map (fun e => e.2)

/-- Python list item assignment lst[i] = v: IndexError when out of range. -/
def pySet (l : PointList) (i : Nat) (v : ℚ × ℚ) : Except String PointList :=
  if i < l.length then .ok (l.set i v) else .error "IndexError"

/-- line_2d_generator.update_2d_lines over the object-graph model.
new_side and new_half are genuine copies; new_cross = old.cross_sections.copy()
is a SHALLOW copy sharing the station lists, so the cross_section branch
writes through the shared reference into the store. -/
def update_2d_lines (σ : Store) (old : Hull2DLineDataObj) (event : InteractionEvent) :
    Except String (Store × Hull2DLineDataObj) :=
  let new_side := old.side_profile
  let new_half := old.half_breadth
  let new_cross := old.cross_sections
  if event.line_type = "side_profile" then
    match pySet new_side event.target_point_idx event.new_coords with
    | .error e => .error e
    | .ok s => .ok (σ, ⟨s, new_half, new_cross, old.line_version + 1⟩)
  else if event.line_type = "half_breadth" then
    match pySet new_half event.target_point_idx event.new_coords with
    | .error e => .error e
    | .ok h => .ok (σ, ⟨new_side, h, new_cross, old.line_version + 1⟩)
  else if event.line_type = "cross_section" ∧ event.cross_section_x ≠ none then
    match event.cross_section_x with
    | none => .ok (σ, ⟨new_side, new_half, new_cross, old.line_version + 1⟩)
    | some x =>
      match refLookup new_cross x with
      | none => .error "KeyError"
      | some r =>
        match pySet (storeRead σ r) event.target_point_idx event.new_coords with
        | .error e => .error e
        | .ok lst => .ok (storeWrite σ r lst, ⟨new_side, new_half, new_cross, old.line_version + 1⟩)
  else
    .ok (σ, ⟨new_side, new_half, new_cross, old.line_version + 1⟩)

/-- What an owner of a Hull2DLineDataObj observes as its cross_sections
value: every station list read through its reference. -/
def crossSectionsView (σ : Store) (o : Hull2DLineDataObj) : List (ℚ × PointList) :=
  o.cross_sections.map (fun e => (e.1, storeRead σ e.2))

/-!
Interactive editing state machine,
line_interaction.MultiSegmentShipEditorInterface.on_press / on_drag /
on_release.  The editor is the sole owner of its Hull2DLineData during a
drag, so the in-place Python mutations are modelled as functional updates
of the editor state.  Figure bookkeeping (circle colours, redraws, the
info panel) has no bearing on data or events and is not modelled; the
control-circle centres always mirror the current control points, which is
how the hit test below reads them.  The hit test compares
sqrt(dx^2+dy^2) <= radius*1.5 with radius = 0.06; squaring both sides
gives the equivalent exact-rational test against (0.09)^2 = 81/10000. -/

/-- A matplotlib pointer event: button, whether it is inside an axes, and
its data coordinates (None outside any axes). -/
structure PointerEvent where
  button : Nat
  inaxes : Bool
  xdata : Option ℚ
  ydata : Option ℚ

/-- The editor state: the owned 2D data plus the drag bookkeeping fields
set up in __init__. -/
structure EditorState where
  hull : Hull2DLineData
  dragging : Bool
  dragged_idx : Option Nat
  dragged_line_type : Option String
  dragged_cross_section_x : Option ℚ
  current_cross_section_x : Option ℚ
  interaction_events : List InteractionEvent

/-- Python dict get(x, []) on the cross-sections association list. -/
def dictGetD (m : List (ℚ × PointList)) (x : ℚ) : PointList :=
  ((m.find? (fun e => decide (e.1 = x))).map (fun e => e.2)).getD []

/-- Python in-place update dict[x][i] = v observed through the dict. -/
def dictSetAt (m : List (ℚ × PointList)) (x : ℚ) (i : Nat) (v : ℚ × ℚ) :
    List (ℚ × PointList) :=
  m.map (fun e => if e.1 = x then (e.1, e.2.set i v) else e)

/-- The control circles of one line type: they mirror the corresponding
control points (for cross_section, those of the currently shown station). -/
def circlesOf (s : EditorState) (lt : String) : PointList :=
  if lt = "side_profile" then s.hull.side_profile
  else if lt = "half_breadth" then s.hull.half_breadth
  else
    match s.current_cross_section_x with
    | some x => dictGetD s.hull.cross_sections x
    | none => []

/-- First control point of a list hit by the pointer (squared-distance
form of the source's sqrt test), with its index. -/
def firstHitIdx (px py : ℚ) : PointList → Option (Nat × (ℚ × ℚ))
  | [] => none
  | c :: rest =>
    if (px - c.1) ^ 2 + (py - c.2) ^ 2 ≤ 81 / 10000 then some (0, c)
    else (firstHitIdx px py rest).map (fun r => (r.1 + 1, r.2))

/-- The on_press scan: line types in source order, first hit wins. -/
def findHit (s : EditorState) (px py : ℚ) : Option (String × Nat × (ℚ × ℚ)) :=
  match firstHitIdx px py (circlesOf s "side_profile") with
  | some (i, c) => some ("side_profile", i, c)
  | none =>
    match firstHitIdx px py (circlesOf s "half_breadth") with
    | some (i, c) => some ("half_breadth", i, c)
    | none =>
      match firstHitIdx px py (circlesOf s "cross_section") with
      | some (i, c) => some ("cross_section", i, c)
      | none => none

/-- line_interaction.on_press: left click inside an axes, scan for a hit,
start the drag and append a drag_start event.  line_version untouched. -/
def on_press (s : EditorState) (e : PointerEvent) : EditorState :=
  if e.button ≠ 1 ∨ e.inaxes = false then s
  else
    match e.xdata, e.ydata with
    | some px, some py =>
      match findHit s px py with
      | none => s
      | some (lt, i, c) =>
        let csx := if lt = "cross_section" then s.current_cross_section_x
                   else s.dragged_cross_section_x
        { s with dragging := true
                 dragged_idx := some i
                 dragged_line_type := some lt
                 dragged_cross_section_x := csx
                 interaction_events := s.interaction_events ++
                   [⟨"drag_start", lt, i, c, csx⟩] }
    | _, _ => s

/-- Python max(lo, min(hi, v)) used for the axis-bound clamping. -/
def clampTo (lo hi v : ℚ) : ℚ := max lo (min hi v)

/-- The points list on_drag / on_release select for a dragged line type:
any tag other than the two named ones falls into the cross_section branch,
exactly as the source's if / elif / else does. -/
def draggedPoints (s : EditorState) (lt : String) : PointList :=
  if lt = "side_profile" then s.hull.side_profile
  else if lt = "half_breadth" then s.hull.half_breadth
  else
    match s.dragged_cross_section_x with
    | some x => dictGetD s.hull.cross_sections x
    | none => []

/-- line_interaction.on_drag: guards, axis-bound clamping (side x -1..13,
y -0.5..4; half x -1..13, y -0.5..3; cross x -3..3, y -0.5..4), in-place
control-point update, and a dragging event.  line_version untouched. -/
def on_drag (s : EditorState) (e : PointerEvent) : EditorState :=
  if s.dragging = false ∨ s.dragged_idx = none ∨ e.inaxes = false then s
  else
    match e.xdata, e.ydata with
    | some ex, some ey =>
      match s.dragged_line_type, s.dragged_idx with
      | some lt, some idx =>
        let new_x :=
          if lt = "side_profile" then clampTo (-1) 13 ex
          else if lt = "half_breadth" then clampTo (-1) 13 ex
          else clampTo (-3) 3 ex
        let new_y :=
          if lt = "side_profile" then clampTo (-1/2) 4 ey
          else if lt = "half_breadth" then clampTo (-1/2) 3 ey
          else clampTo (-1/2) 4 ey
        let points := draggedPoints s lt
        if idx < points.length then
          let hull' :=
            if lt = "side_profile" then
              { s.hull with side_profile := s.hull.side_profile.set idx (new_x, new_y) }
            else if lt = "half_breadth" then
              { s.hull with half_breadth := s.hull.half_breadth.set idx (new_x, new_y) }
            else
              match s.dragged_cross_section_x with
              | some x => { s.hull with
                  cross_sections := dictSetAt s.hull.cross_sections x idx (new_x, new_y) }
              | none => s.hull
          { s with hull := hull'
                   interaction_events := s.interaction_events ++
                     [⟨"dragging", lt, idx, (new_x, new_y), s.dragged_cross_section_x⟩] }
        else s
      | _, _ => s
    | _, _ => s

/-- line_interaction.on_release: when a drag is in progress and the dragged
index is in range, append a drag_end event and increment line_version by
exactly 1; in every case clear the drag bookkeeping. -/
def on_release (s : EditorState) (_e : PointerEvent) : EditorState :=
  let s' :=
    if s.dragging = true ∧ s.dragged_idx ≠ none ∧ s.dragged_line_type ≠ none then
      match s.dragged_line_type, s.dragged_idx with
      | some lt, some idx =>
        let points := draggedPoints s lt
        if idx < points.length then
          { s with interaction_events := s.interaction_events ++
                     [⟨"drag_end", lt, idx, points.getD idx (0, 0), s.dragged_cross_section_x⟩]
                   hull := { s.hull with line_version := s.hull.line_version + 1 } }
        else s
      | _, _ => s
    else s
  { s' with dragging := false
            dragged_idx := none
            dragged_line_type := none
            dragged_cross_section_x := none }

/-!
Helper lemmas (shared; claim theorems themselves are used only by their
witnesses).
-/

lemma length_flatMap_pair {α β : Type} (l : List α) (f g : α → β) :
    (l.flatMap (fun a => [f a, g a])).length = 2 * l.length := by
  induction l with
  | nil => simp
  | cons a t ih => simp [List.flatMap_cons, ih]; omega

lemma flatMap_pair_getElem_even {α β : Type} (l : List α) (f g : α → β) (i : Nat) :
    (l.flatMap (fun a => [f a, g a]))[2 * i]? = l[i]?.map f := by
  induction l generalizing i with
  | nil => simp
  | cons a t ih =>
    cases i with
    | zero => simp [List.flatMap_cons]
    | succ j =>
      have h2 : 2 * (j + 1) = 2 * j + 1 + 1 := by omega
      simp [List.flatMap_cons, h2, ih]

lemma flatMap_pair_getElem_odd {α β : Type} (l : List α) (f g : α → β) (i : Nat) :
    (l.flatMap (fun a => [f a, g a]))[2 * i + 1]? = l[i]?.map g := by
  induction l generalizing i with
  | nil => simp
  | cons a t ih =>
    cases i with
    | zero => simp [List.flatMap_cons]
    | succ j =>
      have h2 : 2 * (j + 1) + 1 = 2 * j + 1 + 1 + 1 := by omega
      simp [List.flatMap_cons, h2, ih]

/-- When the three validation preconditions hold the lofter succeeds and
its output has exactly the structure built by the source loop. -/
lemma generate_3d_wireframe_ok (params : HullBasicParams) (d : Hull2DLineData)
    (h2 : 2 ≤ d.side_profile.length)
    (hmono : nonDecB (d.side_profile.map Prod.fst) = true)
    (hhb : d.half_breadth ≠ []) :
    generate_3d_wireframe params d = .ok
      { vertices := d.side_profile.flatMap (fun p =>
          let y := clampNeg (interpOfSorted (sortByFst d.half_breadth) p.1)
          [(p.1, y, p.2), (p.1, -y, p.2)])
        edges := (List.range d.side_profile.length).map (fun i => (2 * i, 2 * i + 1)) ++
          (List.range (d.side_profile.length - 1)).flatMap (fun i =>
            [(2 * i, 2 * (i + 1)), (2 * i + 1, 2 * (i + 1) + 1)])
        model_version := d.line_version } := by
  have hsp : d.side_profile ≠ [] := by
    intro h
    rw [h] at h2
    simp at h2
  have hlt : ¬ d.side_profile.length < 2 := by omega
  simp [generate_3d_wireframe, validate_input_data, create_interpolation_function,
    hsp, hhb, hlt, hmono, h2]

lemma clampNeg_nonneg (y : ℚ) : 0 ≤ clampNeg y := by
  unfold clampNeg
  split
  · exact abs_nonneg y
  · linarith

lemma clampNeg_eq_abs (y : ℚ) : clampNeg y = |y| := by
  unfold clampNeg
  split
  · rfl
  · exact (abs_of_nonneg (by linarith)).symm

/-- C1: for every side profile with N ≥ 2 points (non-decreasing x) and
every non-empty half-breadth list, the lofter returns a wireframe with
exactly 2N vertices and exactly 3N-2 edges: one transverse edge
(2i, 2i+1) per station i, and for each adjacent station pair the two
longitudinal edges (2i, 2(i+1)) and (2i+1, 2(i+1)+1). -/
theorem lofter_vertex_edge_counts (params : HullBasicParams) (d : Hull2DLineData) (N : Nat)
    (hN : d.side_profile.length = N) (h2 : 2 ≤ N)
    (hmono : nonDecB (d.side_profile.map Prod.fst) = true)
    (hhb : d.half_breadth ≠ []) :
    ∃ w, generate_3d_wireframe params d = .ok w ∧
      w.vertices.length = 2 * N ∧
      w.edges.length = 3 * N - 2 ∧
      w.edges = (List.range N).map (fun i => (2 * i, 2 * i + 1)) ++
        (List.range (N - 1)).flatMap (fun i =>
          [(2 * i, 2 * (i + 1)), (2 * i + 1, 2 * (i + 1) + 1)]) := by
  subst hN
  refine ⟨_, generate_3d_wireframe_ok params d h2 hmono hhb, ?_, ?_, rfl⟩
  · simpa using length_flatMap_pair d.side_profile _ _
  · rw [List.length_append, List.length_map, List.length_range,
      length_flatMap_pair, List.length_range]
    omega

/-- C1 witness: the three-station example of the spec. -/
theorem lofter_vertex_edge_counts_witness :
    (([((0:ℚ),(0:ℚ)),(6,2),(12,0)] : PointList).length = 3 ∧ 2 ≤ 3 ∧
      nonDecB (([((0:ℚ),(0:ℚ)),(6,2),(12,0)] : PointList).map Prod.fst) = true ∧
      ([((0:ℚ),(1/2:ℚ)),(6,2),(12,1/2)] : PointList) ≠ []) ∧
    ∃ w, generate_3d_wireframe ⟨12, 4, 3, 2, 100⟩
        ⟨[(0,0),(6,2),(12,0)], [(0,1/2),(6,2),(12,1/2)], [], 1⟩ = .ok w ∧
      w.vertices.length = 2 * 3 ∧
      w.edges.length = 3 * 3 - 2 ∧
      w.edges = (List.range 3).map (fun i => (2 * i, 2 * i + 1)) ++
        (List.range (3 - 1)).flatMap (fun i =>
          [(2 * i, 2 * (i + 1)), (2 * i + 1, 2 * (i + 1) + 1)]) :=
  ⟨⟨by decide, by decide, by decide, by decide⟩,
    lofter_vertex_edge_counts ⟨12, 4, 3, 2, 100⟩
      ⟨[(0,0),(6,2),(12,0)], [(0,1/2),(6,2),(12,1/2)], [], 1⟩ 3
      rfl (by decide) (by decide) (by decide)⟩

/-- C2: for every valid lofter input and every station i, vertex 2i is
(x_i, y_i, z_i) with y_i ≥ 0 and vertex 2i+1 is (x_i, -y_i, z_i); a
negative resolver value is clamped to its absolute value instead of
raising or producing a negative starboard y. -/
theorem lofter_vertex_parity (params : HullBasicParams) (d : Hull2DLineData)
    (f : ℚ → ℚ) (i : Nat) (x z : ℚ)
    (h2 : 2 ≤ d.side_profile.length)
    (hmono : nonDecB (d.side_profile.map Prod.fst) = true)
    (hhb : d.half_breadth ≠ [])
    (hf : create_interpolation_function d.half_breadth = .ok f)
    (hi : d.side_profile[i]? = some (x, z)) :
    ∃ w, generate_3d_wireframe params d = .ok w ∧
      w.vertices[2 * i]? = some (x, clampNeg (f x), z) ∧
      w.vertices[2 * i + 1]? = some (x, -(clampNeg (f x)), z) ∧
      0 ≤ clampNeg (f x) ∧ clampNeg (f x) = |f x| := by
  have hfval : f = interpOfSorted (sortByFst d.half_breadth) := by
    rw [create_interpolation_function, if_neg hhb] at hf
    exact (Except.ok.injEq _ _ ▸ hf).symm
  refine ⟨_, generate_3d_wireframe_ok params d h2 hmono hhb, ?_, ?_,
    clampNeg_nonneg _, clampNeg_eq_abs _⟩
  · rw [hfval]
    rw [flatMap_pair_getElem_even
      (f := fun p : ℚ × ℚ =>
        (p.1, clampNeg (interpOfSorted (sortByFst d.half_breadth) p.1), p.2))
      (g := fun p : ℚ × ℚ =>
        (p.1, -(clampNeg (interpOfSorted (sortByFst d.half_breadth) p.1)), p.2)), hi]
    rfl
  · rw [hfval]
    rw [flatMap_pair_getElem_odd
      (f := fun p : ℚ × ℚ =>
        (p.1, clampNeg (interpOfSorted (sortByFst d.half_breadth) p.1), p.2))
      (g := fun p : ℚ × ℚ =>
        (p.1, -(clampNeg (interpOfSorted (sortByFst d.half_breadth) p.1)), p.2)), hi]
    rfl

/-- C2 witness: a single-point half-breadth resolver that is constantly
-1; the lofter clamps the resolved value to +1 at every station. -/
theorem lofter_vertex_parity_witness :
    (2 ≤ ([((0:ℚ),(0:ℚ)),(1,2)] : PointList).length ∧
      nonDecB (([((0:ℚ),(0:ℚ)),(1,2)] : PointList).map Prod.fst) = true ∧
      ([((0:ℚ),(-1:ℚ))] : PointList) ≠ [] ∧
      create_interpolation_function [((0:ℚ),(-1:ℚ))] = .ok (fun _ => (-1 : ℚ)) ∧
      ([((0:ℚ),(0:ℚ)),(1,2)] : PointList)[0]? = some (0, 0)) ∧
    ∃ w, generate_3d_wireframe ⟨12, 4, 3, 2, 100⟩
        ⟨[(0,0),(1,2)], [(0,-1)], [], 7⟩ = .ok w ∧
      w.vertices[2 * 0]? = some (0, clampNeg ((fun _ => (-1 : ℚ)) (0:ℚ)), 0) ∧
      w.vertices[2 * 0 + 1]? = some (0, -(clampNeg ((fun _ => (-1 : ℚ)) (0:ℚ))), 0) ∧
      0 ≤ clampNeg ((fun _ => (-1 : ℚ)) (0:ℚ)) ∧
      clampNeg ((fun _ => (-1 : ℚ)) (0:ℚ)) = |(fun _ => (-1 : ℚ)) (0:ℚ)| :=
  ⟨⟨by decide, by decide, by decide, by rfl, by decide⟩,
    lofter_vertex_parity ⟨12, 4, 3, 2, 100⟩ ⟨[(0,0),(1,2)], [(0,-1)], [], 7⟩
      (fun _ => (-1 : ℚ)) 0 0 0 (by decide) (by decide) (by decide) (by rfl) (by decide)⟩

/-- C5: the lofter raises a validation error, returning no wireframe at
all, if and only if the side profile is empty, has fewer than 2 points,
has non-monotonic x-coordinates, or the half-breadth list is empty; in
particular a single-point side profile such as [(5, 0)] always raises. -/
theorem lofter_validation_iff :
    (∀ (params : HullBasicParams) (d : Hull2DLineData),
      (∃ e, generate_3d_wireframe params d = .error e) ↔
        (d.side_profile = [] ∨ d.side_profile.length < 2 ∨
         nonDecB (d.side_profile.map Prod.fst) = false ∨ d.half_breadth = [])) ∧
    (∀ (params : HullBasicParams) (hb : PointList)
        (cs : List (ℚ × PointList)) (v : Nat),
      ∃ e, generate_3d_wireframe params ⟨[(5, 0)], hb, cs, v⟩ = .error e) := by
  have main : ∀ (params : HullBasicParams) (d : Hull2DLineData),
      (∃ e, generate_3d_wireframe params d = .error e) ↔
        (d.side_profile = [] ∨ d.side_profile.length < 2 ∨
         nonDecB (d.side_profile.map Prod.fst) = false ∨ d.half_breadth = []) := by
    intro params d
    constructor
    · intro ⟨e, he⟩
      by_contra hcon
      push_neg at hcon
      obtain ⟨h1, h2, h3, h4⟩ := hcon
      have h2' : 2 ≤ d.side_profile.length := by omega
      have h3' : nonDecB (d.side_profile.map Prod.fst) = true := by
        cases hb : nonDecB (d.side_profile.map Prod.fst)
        · exact absurd hb h3
        · rfl
      rw [generate_3d_wireframe_ok params d h2' h3' h4] at he
      exact Except.noConfusion he
    · intro h
      by_cases h1 : d.side_profile = []
      · exact ⟨"侧面轮廓数据为空", by simp [generate_3d_wireframe, validate_input_data, h1]⟩
      · by_cases h4 : d.half_breadth = []
        · exact ⟨"半宽图数据为空", by simp [generate_3d_wireframe, validate_input_data, h1, h4]⟩
        · by_cases h2 : d.side_profile.length < 2
          · exact ⟨"侧面轮廓数据点太少,至少需要2个点",
              by simp [generate_3d_wireframe, validate_input_data, h1, h4, h2]⟩
          · by_cases h3 : nonDecB (d.side_profile.map Prod.fst) = false
            · exact ⟨"侧面轮廓x坐标必须单调递增",
                by simp [generate_3d_wireframe, validate_input_data, h1, h4, h2, h3]⟩
            · rcases h with h | h | h | h
              · exact absurd h h1
              · exact absurd h h2
              · exact absurd h h3
              · exact absurd h h4
  refine ⟨main, ?_⟩
  intro params hb cs v
  rw [main params ⟨[(5, 0)], hb, cs, v⟩]
  right; left
  simp

/-- C8: with exactly two half-breadth points (x1,y1), (x2,y2), x1 < x2
after sorting, the resolver returns y1 for x ≤ x1, y2 for x ≥ x2, and the
exact linear interpolation in between — flat clamping, no extrapolation. -/
theorem resolver_two_point_clamp (hb : PointList) (x1 y1 x2 y2 : ℚ)
    (hs : sortByFst hb = [(x1, y1), (x2, y2)]) (hx : x1 < x2) :
    ∃ f, create_interpolation_function hb = .ok f ∧
      ∀ x, (x ≤ x1 → f x = y1) ∧ (x2 ≤ x → f x = y2) ∧
        (x1 < x → x < x2 → f x = y1 + (y2 - y1) / (x2 - x1) * (x - x1)) := by
  have hhb : hb ≠ [] := by
    intro h
    rw [h] at hs
    exact List.noConfusion hs
  refine ⟨interpOfSorted (sortByFst hb), by rw [create_interpolation_function, if_neg hhb], ?_⟩
  intro x
  rw [hs]
  have hne : x2 ≠ x1 := ne_of_gt hx
  refine ⟨?_, ?_, ?_⟩
  · intro hle
    simp only [interpOfSorted, if_pos hle]
  · intro hge
    have h1 : ¬ x ≤ x1 := by linarith
    simp only [interpOfSorted, if_neg h1, ge_iff_le, if_pos hge]
  · intro ha hb2
    have h1 : ¬ x ≤ x1 := by linarith
    have h2 : ¬ x ≥ x2 := by linarith
    simp only [interpOfSorted, if_neg h1, ge_iff_le, if_neg (by linarith : ¬ x2 ≤ x),
      if_pos hne]

/-- C8 witness: the unsorted two-point list [(10,7),(0,3)] sorts to
[(0,3),(10,7)]; the resolver clamps below 0 and above 10. -/
theorem resolver_two_point_clamp_witness :
    (sortByFst [((10:ℚ),(7:ℚ)), (0, 3)] = [(0, 3), (10, 7)] ∧ (0:ℚ) < 10) ∧
    ∃ f, create_interpolation_function [((10:ℚ),(7:ℚ)), (0, 3)] = .ok f ∧
      ∀ x, (x ≤ 0 → f x = 3) ∧ (10 ≤ x → f x = 7) ∧
        (0 < x → x < 10 → f x = 3 + (7 - 3) / (10 - 0) * (x - 0)) :=
  ⟨⟨by decide, by decide⟩,
    resolver_two_point_clamp [((10:ℚ),(7:ℚ)), (0, 3)] 0 3 10 7 (by decide) (by decide)⟩

lemma mem_of_getLast?_eq {l : PointList} {a : ℚ × ℚ} (h : l.getLast? = some a) : a ∈ l := by
  have hx : a ∈ l.getLast? := Option.mem_def.mpr h
  obtain ⟨hne, ha⟩ := List.mem_getLast?_eq_getLast hx
  rw [ha]
  exact List.getLast_mem hne

lemma mem_of_getElem?_eq {l : PointList} {a : ℚ × ℚ} {i : Nat} (h : l[i]? = some a) : a ∈ l := by
  obtain ⟨hi, rfl⟩ := List.getElem?_eq_some_iff.mp h
  exact List.getElem_mem hi

lemma pair_lt_head_le {q : ℚ × ℚ} {t : PointList} {j : Nat} {a : ℚ × ℚ}
    (hpw : List.Pairwise (fun u v : ℚ × ℚ => u.1 < v.1) (q :: t))
    (hj : (q :: t)[j]? = some a) : q.1 ≤ a.1 := by
  cases j with
  | zero =>
    simp at hj
    rw [← hj]
  | succ j' =>
    have ht : t[j']? = some a := by simpa using hj
    exact le_of_lt ((List.pairwise_cons.mp hpw).1 a (mem_of_getElem?_eq ht))

/-- np.interp holds its first knot value for every x at or below the first
knot. -/
lemma np_interp_clamp_left {p : ℚ × ℚ} {l : PointList} {x : ℚ} (hx : x ≤ p.1) :
    np_interp x (p :: l) = p.2 := by
  cases l with
  | nil => simp [np_interp]
  | cons q rest => simp [np_interp, if_pos hx]

lemma np_interp_second {p q : ℚ × ℚ} {rest : PointList} {x : ℚ}
    (h1 : ¬ x ≤ p.1) (h2 : x ≤ q.1) :
    np_interp x (p :: q :: rest) = p.2 + (q.2 - p.2) / (q.1 - p.1) * (x - p.1) := by
  conv_lhs => rw [np_interp]
  rw [if_neg h1, if_pos h2]

lemma np_interp_skip {p q : ℚ × ℚ} {rest : PointList} {x : ℚ}
    (h1 : ¬ x ≤ p.1) (h2 : ¬ x ≤ q.1) :
    np_interp x (p :: q :: rest) = np_interp x (q :: rest) := by
  conv_lhs => rw [np_interp]
  rw [if_neg h1, if_neg h2]

/-- np.interp holds its last knot value for every x at or above the last
knot (strictly increasing knots): numpy CLAMPS, it does not extrapolate. -/
lemma np_interp_clamp_right : ∀ (l : PointList),
    List.Pairwise (fun u v : ℚ × ℚ => u.1 < v.1) l →
    ∀ (xl yl x : ℚ), l.getLast? = some (xl, yl) → xl ≤ x → np_interp x l = yl
  | [], _, xl, yl, x, hlast, _ => by simp at hlast
  | [p], _, xl, yl, x, hlast, hx => by
    simp at hlast
    rw [hlast]
    simp [np_interp]
  | p :: q :: rest, hpw, xl, yl, x, hlast, hx => by
    have hlast2 : (q :: rest).getLast? = some (xl, yl) := by
      rwa [List.getLast?_cons_cons] at hlast
    have hplt : p.1 < xl :=
      (List.pairwise_cons.mp hpw).1 (xl, yl) (mem_of_getLast?_eq hlast2)
    have hnle : ¬ x ≤ p.1 := by linarith
    cases rest with
    | nil =>
      have hq : q = (xl, yl) := by simpa using hlast2
      subst hq
      by_cases hxq : x ≤ xl
      · have hxeq : x = xl := le_antisymm hxq hx
        subst hxeq
        have hne : (x : ℚ) - p.1 ≠ 0 := sub_ne_zero.mpr (ne_of_gt hplt)
        rw [np_interp_second hnle (le_refl x), div_mul_cancel₀ _ hne]
        ring
      · rw [np_interp_skip hnle hxq]
        simp [np_interp]
    | cons r rest2 =>
      have hqlt : q.1 < xl := by
        have hmem : (xl, yl) ∈ r :: rest2 := by
          rw [List.getLast?_cons_cons] at hlast2
          exact mem_of_getLast?_eq hlast2
        exact (List.pairwise_cons.mp hpw.tail).1 (xl, yl) hmem
      have hnq : ¬ x ≤ q.1 := by linarith
      rw [np_interp_skip hnle hnq]
      exact np_interp_clamp_right (q :: r :: rest2) hpw.tail xl yl x hlast2 hx

/-- np.interp on strictly increasing knots evaluates the exact linear
interpolation formula of segment i for x in that segment. -/
lemma np_interp_segment : ∀ (l : PointList),
    List.Pairwise (fun u v : ℚ × ℚ => u.1 < v.1) l →
    ∀ (i : Nat) (x1 y1 x2 y2 x : ℚ), l[i]? = some (x1, y1) → l[i + 1]? = some (x2, y2) →
      x1 < x → x ≤ x2 → np_interp x l = y1 + (y2 - y1) / (x2 - x1) * (x - x1)
  | [], _, i, x1, y1, x2, y2, x, h1, _, _, _ => by simp at h1
  | [p], _, i, x1, y1, x2, y2, x, _, h2, _, _ => by
    cases i <;> simp at h2
  | p :: q :: rest, hpw, i, x1, y1, x2, y2, x, h1, h2, hx1, hx2 => by
    cases i with
    | zero =>
      have hp : p = (x1, y1) := by simpa using h1
      have hq : q = (x2, y2) := by simpa using h2
      subst hp hq
      have hnle : ¬ x ≤ (x1, y1).1 := by simp; linarith
      rw [np_interp_second hnle hx2]
    | succ j =>
      have h1a : (q :: rest)[j]? = some (x1, y1) := by simpa using h1
      have h2a : (q :: rest)[j + 1]? = some (x2, y2) := by simpa using h2
      have hq1 : q.1 ≤ x1 := pair_lt_head_le hpw.tail h1a
      have hp1 : p.1 < x1 :=
        (List.pairwise_cons.mp hpw).1 (x1, y1) (mem_of_getElem?_eq h1a)
      have hnle : ¬ x ≤ p.1 := by linarith
      have hnq : ¬ x ≤ q.1 := by linarith
      rw [np_interp_skip hnle hnq]
      exact np_interp_segment (q :: rest) hpw.tail j x1 y1 x2 y2 x h1a h2a hx1 hx2

/-- C3 counterexample: for the 3-point half-breadth [(0,0),(1,1),(2,3)]
the resolver returns 3 at x = 3, whereas continuing the boundary segment
slope (the segment from (1,1) to (2,3)) past the last station would give
3 + (3-1)/(2-1) * (3-2) = 5.  The code clamps; it does not extrapolate. -/
theorem resolver_three_point_extrapolation_counterexample :
    (create_interpolation_function [(0, 0), (1, 1), (2, 3)]).map (fun g => g 3) = .ok 3 ∧
    (3 : ℚ) + (3 - 1) / (2 - 1) * (3 - 2) = 5 ∧ (3 : ℚ) ≠ 5 := by
  refine ⟨by rfl, by norm_num, by norm_num⟩

/-- C3 amended: for every half-breadth list with at least 3 points whose
sorted station abscissas are strictly increasing, the resolver performs
piecewise-linear interpolation inside the sampled x-range and CLAMPS to
the boundary y-values outside it (just like the 2-point case), rather
than continuing the boundary segment slope. -/
theorem resolver_three_point_clamp (hb : PointList) (x0 y0 xl yl : ℚ)
    (h3 : 3 ≤ hb.length)
    (hpw : List.Pairwise (fun u v : ℚ × ℚ => u.1 < v.1) (sortByFst hb))
    (hhead : (sortByFst hb).head? = some (x0, y0))
    (hlast : (sortByFst hb).getLast? = some (xl, yl)) :
    ∃ f, create_interpolation_function hb = .ok f ∧
      (∀ x, x ≤ x0 → f x = y0) ∧
      (∀ x, xl ≤ x → f x = yl) ∧
      (∀ i x1 y1 x2 y2 x, (sortByFst hb)[i]? = some (x1, y1) →
        (sortByFst hb)[i + 1]? = some (x2, y2) → x1 < x → x ≤ x2 →
        f x = y1 + (y2 - y1) / (x2 - x1) * (x - x1)) := by
  have hhb : hb ≠ [] := by
    intro h
    rw [h] at h3
    simp at h3
  have hlen : 3 ≤ (sortByFst hb).length := by
    rw [sortByFst, List.length_insertionSort]
    exact h3
  refine ⟨interpOfSorted (sortByFst hb), by rw [create_interpolation_function, if_neg hhb], ?_⟩
  rcases hs : sortByFst hb with _ | ⟨a, _ | ⟨b, _ | ⟨c, t⟩⟩⟩
  · rw [hs] at hlen; simp at hlen
  · rw [hs] at hlen; simp at hlen
  · rw [hs] at hlen; simp at hlen
  rw [hs] at hpw hhead hlast
  have hfun : interpOfSorted (a :: b :: c :: t) = fun x => np_interp x (a :: b :: c :: t) := rfl
  rw [hfun]
  have ha : a = (x0, y0) := by simpa using hhead
  subst ha
  refine ⟨?_, ?_, ?_⟩
  · intro x hx
    exact np_interp_clamp_left hx
  · intro x hx
    exact np_interp_clamp_right _ hpw xl yl x hlast hx
  · intro i x1 y1 x2 y2 x h1 h2 hxa hxb
    exact np_interp_segment _ hpw i x1 y1 x2 y2 x h1 h2 hxa hxb

/-- C3 amended witness: the resolver for [(0,0),(1,1),(2,3)] clamps to 0
below x=0 and to 3 above x=2 and interpolates linearly in between. -/
theorem resolver_three_point_clamp_witness :
    (3 ≤ ([((0:ℚ),(0:ℚ)),(1,1),(2,3)] : PointList).length ∧
      List.Pairwise (fun u v : ℚ × ℚ => u.1 < v.1) (sortByFst [(0,0),(1,1),(2,3)]) ∧
      (sortByFst [((0:ℚ),(0:ℚ)),(1,1),(2,3)]).head? = some (0, 0) ∧
      (sortByFst [((0:ℚ),(0:ℚ)),(1,1),(2,3)]).getLast? = some (2, 3)) ∧
    ∃ f, create_interpolation_function [((0:ℚ),(0:ℚ)),(1,1),(2,3)] = .ok f ∧
      (∀ x, x ≤ 0 → f x = 0) ∧
      (∀ x, 2 ≤ x → f x = 3) ∧
      (∀ i x1 y1 x2 y2 x, (sortByFst [((0:ℚ),(0:ℚ)),(1,1),(2,3)])[i]? = some (x1, y1) →
        (sortByFst [((0:ℚ),(0:ℚ)),(1,1),(2,3)])[i + 1]? = some (x2, y2) → x1 < x → x ≤ x2 →
        f x = y1 + (y2 - y1) / (x2 - x1) * (x - x1)) :=
  ⟨⟨by decide, by decide, by decide, by decide⟩,
    resolver_three_point_clamp [(0,0),(1,1),(2,3)] 0 0 2 3
      (by decide) (by decide) (by decide) (by decide)⟩

lemma length_np_linspace (a b : ℚ) (n : Nat) : (np_linspace a b n).length = n := by
  rw [np_linspace, List.length_map, List.length_range]

lemma length_linear_interpolation (points : PointList) (h2 : 2 ≤ points.length) :
    (linear_interpolation points).length = 100 := by
  rw [linear_interpolation, if_neg (by omega), List.length_map, length_np_linspace]

/-- C6 counterexample: the two coincident control points (0,0), (0,0)
leave a single unique abscissa after duplicate collapse, and the open
curve generator returns the 2 sorted input points unchanged — NOT a
100-point piecewise-linear interpolation. -/
theorem open_curve_dedup_counterexample :
    generate_open_curve noneOracle [(0, 0), (0, 0)] = [(0, 0), (0, 0)] ∧
    (generate_open_curve noneOracle [((0:ℚ), (0:ℚ)), (0, 0)]).length = 2 ∧
    (collapseDup (sortByFst [((0:ℚ), (0:ℚ)), (0, 0)])).length < 2 ∧
    (2 : Nat) ≠ 100 := by
  have hs : sortByFst [((0:ℚ), (0:ℚ)), (0, 0)] = [(0, 0), (0, 0)] := by decide
  have hc : collapseDup [((0:ℚ), (0:ℚ)), (0, 0)] = [(0, 0)] := by
    simp only [collapseDup]
    rw [if_neg (by norm_num [eps10])]
  have hlen : (collapseDup (sortByFst [((0:ℚ), (0:ℚ)), (0, 0)])).length < 2 := by
    rw [hs, hc]
    norm_num
  have hres : generate_open_curve noneOracle [((0:ℚ), (0:ℚ)), (0, 0)] = [(0, 0), (0, 0)] := by
    rw [generate_open_curve, if_pos hlen, hs]
  exact ⟨hres, by rw [hres]; rfl, hlen, by decide⟩

/-- C6 amended: with ≥ 2 control points, when fewer than 2 unique
abscissas survive the 1e-10 duplicate collapse the generator returns the
SORTED ORIGINAL POINTS UNCHANGED (not a resampled curve); only when the
deduplicated knots are ≥ 2 and the cubic-spline fit raises does it fall
back to the 100-point piecewise-linear interpolation, computed over the
original non-deduplicated points in their input order. -/
theorem open_curve_fallbacks (O : FitOracle) (points : PointList)
    (h2 : 2 ≤ points.length) :
    ((collapseDup (sortByFst points)).length < 2 →
      generate_open_curve O points = sortByFst points) ∧
    (2 ≤ (collapseDup (sortByFst points)).length →
      O.fitOpen (collapseDup (sortByFst points)) = none →
      generate_open_curve O points = linear_interpolation points ∧
      (generate_open_curve O points).length = 100) := by
  constructor
  · intro hlt
    rw [generate_open_curve, if_pos hlt]
  · intro hge hfit
    have hres : generate_open_curve O points = linear_interpolation points := by
      rw [generate_open_curve, if_neg (by omega), hfit]
    exact ⟨hres, by rw [hres]; exact length_linear_interpolation points h2⟩

/-- C6 amended witness: two distinct-abscissa points with a failing fit
oracle exercise the linear fallback, which has exactly 100 points. -/
theorem open_curve_fallbacks_witness :
    (2 ≤ ([((0:ℚ), (0:ℚ)), (2, 1)] : PointList).length) ∧
    (((collapseDup (sortByFst [((0:ℚ), (0:ℚ)), (2, 1)])).length < 2 →
      generate_open_curve noneOracle [(0, 0), (2, 1)] = sortByFst [(0, 0), (2, 1)]) ∧
    (2 ≤ (collapseDup (sortByFst [((0:ℚ), (0:ℚ)), (2, 1)])).length →
      noneOracle.fitOpen (collapseDup (sortByFst [((0:ℚ), (0:ℚ)), (2, 1)])) = none →
      generate_open_curve noneOracle [(0, 0), (2, 1)] = linear_interpolation [(0, 0), (2, 1)] ∧
      (generate_open_curve noneOracle [((0:ℚ), (0:ℚ)), (2, 1)]).length = 100)) :=
  ⟨by decide, open_curve_fallbacks noneOracle [(0, 0), (2, 1)] (by decide)⟩

lemma length_segmentPoints (p q : ℚ × ℚ) : (segmentPoints p q).length = 20 := by
  rw [segmentPoints, List.length_map, List.length_range]

lemma length_adjPairs (l : PointList) : (adjPairs l).length = l.length - 1 := by
  rw [adjPairs, List.length_zip, List.length_tail]
  omega

lemma length_flatMap_segmentPoints (L : List ((ℚ × ℚ) × (ℚ × ℚ))) :
    (L.flatMap (fun pq => segmentPoints pq.1 pq.2)).length = 20 * L.length := by
  induction L with
  | nil => rfl
  | cons a t ih =>
    rw [List.flatMap_cons, List.length_append, length_segmentPoints, ih, List.length_cons]
    omega

lemma closeLoop_cases (l : PointList) :
    closeLoop l = l ∨ ∃ p0, l.head? = some p0 ∧ closeLoop l = l ++ [p0] := by
  rw [closeLoop]
  split
  next p0 pn h1 h2 =>
    split
    · exact Or.inr ⟨p0, h1, rfl⟩
    · exact Or.inl rfl
  next => exact Or.inl rfl

lemma length_le_closeLoop (l : PointList) : l.length ≤ (closeLoop l).length := by
  rcases closeLoop_cases l with h | ⟨p0, _, h⟩
  · rw [h]
  · rw [h]
    simp

lemma closeLoop_head? (l : PointList) : (closeLoop l).head? = l.head? := by
  rcases closeLoop_cases l with h | ⟨p0, hp, h⟩
  · rw [h]
  · rw [h]
    cases l with
    | nil => exact Option.noConfusion hp
    | cons a t => simp

/-- Closing an already-closed loop is a no-op: after closeLoop the first
and last points differ by at most eps10 in both coordinates, so the
closure test fails on a second pass. -/
lemma closeLoop_closeLoop (l : PointList) : closeLoop (closeLoop l) = closeLoop l := by
  rcases closeLoop_cases l with h | ⟨p0, hp, h⟩
  · rw [h, h]
  · rw [h]
    have hne : l ≠ [] := by
      intro hl
      rw [hl] at hp
      exact Option.noConfusion hp
    have hhead : (l ++ [p0]).head? = some p0 := by
      cases l with
      | nil => exact absurd rfl hne
      | cons a t =>
        have : a = p0 := by simpa using hp
        simp [this]
    have hlast : (l ++ [p0]).getLast? = some p0 := by simp
    rw [closeLoop, hhead, hlast]
    have hcond : ¬ (|p0.1 - p0.1| > eps10 ∨ |p0.2 - p0.2| > eps10) := by
      norm_num [eps10]
    show (if |p0.1 - p0.1| > eps10 ∨ |p0.2 - p0.2| > eps10 then l ++ [p0] ++ [p0]
      else l ++ [p0]) = l ++ [p0]
    rw [if_neg hcond]

lemma segmentPoints_ne_nil (p q : ℚ × ℚ) : segmentPoints p q ≠ [] := by
  intro h
  have hl := length_segmentPoints p q
  rw [h] at hl
  simp at hl

lemma segmentPoints_head? (p q : ℚ × ℚ) : (segmentPoints p q).head? = some p := by
  have h : (segmentPoints p q).head? =
      some (p.1 + ((0 : ℕ) : ℚ) / 20 * (q.1 - p.1), p.2 + ((0 : ℕ) : ℚ) / 20 * (q.2 - p.2)) := rfl
  rw [h]
  norm_num

lemma segmentPoints_getLast? (p q : ℚ × ℚ) : (segmentPoints p q).getLast? =
    some (p.1 + 19 / 20 * (q.1 - p.1), p.2 + 19 / 20 * (q.2 - p.2)) := by
  have h : (segmentPoints p q).getLast? =
      some (p.1 + ((19 : ℕ) : ℚ) / 20 * (q.1 - p.1), p.2 + ((19 : ℕ) : ℚ) / 20 * (q.2 - p.2)) := rfl
  rw [h]
  norm_num

lemma adjPairs_cons_cons (a b : ℚ × ℚ) (t : PointList) :
    adjPairs (a :: b :: t) = (a, b) :: adjPairs (b :: t) := rfl

lemma adjPairs_concat2 : ∀ (l : PointList) (p q : ℚ × ℚ),
    adjPairs (l ++ [p, q]) = adjPairs (l ++ [p]) ++ [(p, q)]
  | [], p, q => rfl
  | [_], p, q => rfl
  | a :: b :: t, p, q => by
    show (a, b) :: adjPairs (b :: (t ++ [p, q])) =
      ((a, b) :: adjPairs (b :: (t ++ [p]))) ++ [(p, q)]
    rw [List.cons_append]
    exact congrArg (List.cons (a, b)) (adjPairs_concat2 (b :: t) p q)

lemma head?_append_of_some {α : Type} {l1 l2 : List α} {a : α} (h : l1.head? = some a) :
    (l1 ++ l2).head? = some a := by
  cases l1 with
  | nil => exact Option.noConfusion h
  | cons x t => simpa using h

lemma flatMap_concat_getLast (L : List ((ℚ × ℚ) × (ℚ × ℚ))) (p q : ℚ × ℚ) :
    ((L ++ [(p, q)]).flatMap (fun pq => segmentPoints pq.1 pq.2)).getLast? =
      (segmentPoints p q).getLast? := by
  have h1 : ([((p, q))] : List ((ℚ × ℚ) × (ℚ × ℚ))).flatMap
      (fun pq => segmentPoints pq.1 pq.2) = segmentPoints p q := by
    simp [List.flatMap_cons]
  rw [List.flatMap_append, h1,
    List.getLast?_append_of_ne_nil _ (segmentPoints_ne_nil p q)]

/-- C10 (implicit): the closed linear fallback emits each segment only at
parameters j/20, j = 0..19, so the appended closing point is never itself
emitted: the output starts exactly at the first control point, its last
point is the 19/20 lerp of the final segment (one twentieth short of the
loop start), and when consecutive control points of the closed loop are
distinct the first and last output points do not coincide — the "closed"
fallback polyline is left open. -/
theorem closed_fallback_left_open (points : PointList) (p0 p1 : ℚ × ℚ)
    (h3 : 3 ≤ points.length)
    (hp0 : points.head? = some p0)
    (hlast : (closeLoop points).getLast? = some p0)
    (hprev : (closeLoop points).dropLast.getLast? = some p1)
    (hchain : List.Chain' (fun a b : ℚ × ℚ => a ≠ b) (closeLoop points)) :
    linear_interpolation_closed points =
      (adjPairs (closeLoop points)).flatMap (fun pq => segmentPoints pq.1 pq.2) ∧
    (linear_interpolation_closed points).head? = some p0 ∧
    (linear_interpolation_closed points).getLast? =
      some (p1.1 + 19 / 20 * (p0.1 - p1.1), p1.2 + 19 / 20 * (p0.2 - p1.2)) ∧
    (p1.1 + 19 / 20 * (p0.1 - p1.1), p1.2 + 19 / 20 * (p0.2 - p1.2)) ≠ p0 := by
  have hguard : ¬ points.length < 3 := by omega
  have hdef : linear_interpolation_closed points =
      (adjPairs (closeLoop points)).flatMap (fun pq => segmentPoints pq.1 pq.2) := by
    rw [linear_interpolation_closed, if_neg hguard]
  have hpts1 : (closeLoop points).dropLast ++ [p0] = closeLoop points :=
    List.dropLast_append_getLast? p0 (Option.mem_def.mpr hlast)
  have hpts2 : (closeLoop points).dropLast.dropLast ++ [p1] = (closeLoop points).dropLast :=
    List.dropLast_append_getLast? p1 (Option.mem_def.mpr hprev)
  have hdec : closeLoop points = (closeLoop points).dropLast.dropLast ++ [p1, p0] := by
    conv_lhs => rw [← hpts1, ← hpts2]
    rw [List.append_assoc]
    rfl
  have hne : p1 ≠ p0 := by
    have hsuf : [p1, p0] <:+ closeLoop points := ⟨(closeLoop points).dropLast.dropLast, hdec.symm⟩
    exact List.chain'_pair.mp (hchain.suffix hsuf)
  have hlerp_ne : (p1.1 + 19 / 20 * (p0.1 - p1.1), p1.2 + 19 / 20 * (p0.2 - p1.2)) ≠ p0 := by
    intro heq
    have h1 : p1.1 + 19 / 20 * (p0.1 - p1.1) = p0.1 := congrArg Prod.fst heq
    have h2 : p1.2 + 19 / 20 * (p0.2 - p1.2) = p0.2 := congrArg Prod.snd heq
    exact hne (Prod.ext_iff.mpr ⟨by linarith, by linarith⟩)
  have hlen3 : 3 ≤ (closeLoop points).length := le_trans h3 (length_le_closeLoop points)
  have hhead : (closeLoop points).head? = some p0 := by rw [closeLoop_head?]; exact hp0
  refine ⟨hdef, ?_, ?_, hlerp_ne⟩
  · rw [hdef]
    rcases hE : closeLoop points with _ | ⟨a, _ | ⟨b, t⟩⟩
    · rw [hE] at hlen3; simp at hlen3
    · rw [hE] at hlen3; simp at hlen3
    · have ha : a = p0 := by
        rw [hE] at hhead
        simpa using hhead
      rw [adjPairs_cons_cons, List.flatMap_cons]
      rw [head?_append_of_some (segmentPoints_head? a b)]
      rw [ha]
  · rw [hdef]
    conv_lhs => rw [hdec]
    rw [adjPairs_concat2, flatMap_concat_getLast, segmentPoints_getLast?]

/-- C10 witness: the triangle (0,0),(1,0),(0,1), closed to a 4-point
loop with pairwise-distinct consecutive points; the fallback starts at
(0,0) and ends at (0, 1/20) ≠ (0,0). -/
theorem closed_fallback_left_open_witness :
    (3 ≤ ([((0:ℚ), (0:ℚ)), (1, 0), (0, 1)] : PointList).length ∧
     ([((0:ℚ), (0:ℚ)), (1, 0), (0, 1)] : PointList).head? = some (0, 0) ∧
     (closeLoop [((0:ℚ), (0:ℚ)), (1, 0), (0, 1)]).getLast? = some (0, 0) ∧
     (closeLoop [((0:ℚ), (0:ℚ)), (1, 0), (0, 1)]).dropLast.getLast? = some (0, 1) ∧
     List.Chain' (fun a b : ℚ × ℚ => a ≠ b) (closeLoop [((0:ℚ), (0:ℚ)), (1, 0), (0, 1)])) ∧
    (linear_interpolation_closed [((0:ℚ), (0:ℚ)), (1, 0), (0, 1)] =
      (adjPairs (closeLoop [((0:ℚ), (0:ℚ)), (1, 0), (0, 1)])).flatMap
        (fun pq => segmentPoints pq.1 pq.2) ∧
     (linear_interpolation_closed [((0:ℚ), (0:ℚ)), (1, 0), (0, 1)]).head? = some (0, 0) ∧
     (linear_interpolation_closed [((0:ℚ), (0:ℚ)), (1, 0), (0, 1)]).getLast? =
       some ((0:ℚ) + 19 / 20 * ((0:ℚ) - 0), (1:ℚ) + 19 / 20 * ((0:ℚ) - 1)) ∧
     ((0:ℚ) + 19 / 20 * ((0:ℚ) - 0), (1:ℚ) + 19 / 20 * ((0:ℚ) - 1)) ≠ ((0:ℚ), (0:ℚ))) := by
  have hcl : closeLoop [((0:ℚ), (0:ℚ)), (1, 0), (0, 1)] = [(0, 0), (1, 0), (0, 1), (0, 0)] := by
    show (if |(0:ℚ) - 0| > eps10 ∨ |(0:ℚ) - 1| > eps10
        then [((0:ℚ), (0:ℚ)), (1, 0), (0, 1)] ++ [(0, 0)]
        else [((0:ℚ), (0:ℚ)), (1, 0), (0, 1)]) = [(0, 0), (1, 0), (0, 1), (0, 0)]
    rw [if_pos (by norm_num [eps10])]
    rfl
  have hch : List.Chain' (fun a b : ℚ × ℚ => a ≠ b)
      [((0:ℚ), (0:ℚ)), (1, 0), (0, 1), (0, 0)] := by
    simp only [List.chain'_cons, List.chain'_singleton, and_true]
    refine ⟨by decide, by decide, by decide⟩
  refine ⟨⟨by decide, by decide, ?_, ?_, ?_⟩,
    closed_fallback_left_open [((0:ℚ), (0:ℚ)), (1, 0), (0, 1)] (0, 0) (0, 1)
      (by decide) (by decide) ?_ ?_ ?_⟩
  · rw [hcl]; decide
  · rw [hcl]; decide
  · rw [hcl]; exact hch
  · rw [hcl]; decide
  · rw [hcl]; decide
  · rw [hcl]; exact hch

/-- C4 evaluation: updating a cross-section point through
update_2d_lines writes through the dict reference shared by the shallow
cross_sections.copy(), so the OLD object's observed cross-section list
changes from [(0,0)] to [(9,9)] — the old snapshot is mutated, while
line_version of the returned object is old + 1.  This contradicts the
source's own comment that the copies protect the original object. -/
theorem update_2d_lines_shallow_copy_mutation :
    (update_2d_lines [[((0:ℚ), (0:ℚ))]]
        ⟨[(0, 0), (1, 1)], [(0, 0)], [(2, 0)], 1⟩
        ⟨"dragging", "cross_section", 0, (9, 9), some 2⟩).map
      (fun r => (crossSectionsView r.1 ⟨[(0, 0), (1, 1)], [(0, 0)], [(2, 0)], 1⟩,
                 r.2.line_version)) = .ok ([(2, [(9, 9)])], 2) ∧
    crossSectionsView [[((0:ℚ), (0:ℚ))]]
      ⟨[(0, 0), (1, 1)], [(0, 0)], [(2, 0)], 1⟩ = [(2, [(0, 0)])] ∧
    ([((2:ℚ), [((9:ℚ), (9:ℚ))])] : List (ℚ × PointList)) ≠ [(2, [(0, 0)])] :=
  ⟨rfl, rfl, by decide⟩

lemma on_press_hull (s : EditorState) (e : PointerEvent) : (on_press s e).hull = s.hull := by
  rw [on_press]
  split
  · rfl
  · split
    · split
      · rfl
      · rfl
    · rfl

lemma dictGetD_dictSetAt_length (m : List (ℚ × PointList)) (x y : ℚ) (i : Nat) (v : ℚ × ℚ) :
    (dictGetD (dictSetAt m x i v) y).length = (dictGetD m y).length := by
  induction m with
  | nil => rfl
  | cons a t ih =>
    have hg1 : (if a.1 = x then (a.1, a.2.set i v) else a).1 = a.1 := by
      split
      · rfl
      · rfl
    simp only [dictSetAt, List.map_cons, dictGetD, List.find?_cons, hg1]
    rcases hd : decide (a.1 = y) with _ | _
    · simp only [hd]
      simpa [dictGetD, dictSetAt] using ih
    · simp only [hd]
      split
      · simp
      · rfl

lemma on_drag_dragging (s : EditorState) (e : PointerEvent) :
    (on_drag s e).dragging = s.dragging := by
  rw [on_drag]
  repeat' split
  all_goals try rfl
  all_goals dsimp only
  all_goals split
  all_goals rfl

lemma on_drag_dragged_idx (s : EditorState) (e : PointerEvent) :
    (on_drag s e).dragged_idx = s.dragged_idx := by
  rw [on_drag]
  repeat' split
  all_goals try rfl
  all_goals dsimp only
  all_goals split
  all_goals rfl

lemma on_drag_dragged_line_type (s : EditorState) (e : PointerEvent) :
    (on_drag s e).dragged_line_type = s.dragged_line_type := by
  rw [on_drag]
  repeat' split
  all_goals try rfl
  all_goals dsimp only
  all_goals split
  all_goals rfl

lemma on_drag_dragged_cross_section_x (s : EditorState) (e : PointerEvent) :
    (on_drag s e).dragged_cross_section_x = s.dragged_cross_section_x := by
  rw [on_drag]
  repeat' split
  all_goals try rfl
  all_goals dsimp only
  all_goals split
  all_goals rfl

lemma on_drag_version (s : EditorState) (e : PointerEvent) :
    (on_drag s e).hull.line_version = s.hull.line_version := by
  rw [on_drag]
  repeat' split
  all_goals try rfl
  all_goals dsimp only
  all_goals split
  all_goals rfl

lemma on_drag_draggedPoints_length (s : EditorState) (e : PointerEvent) (lt2 : String) :
    (draggedPoints (on_drag s e) lt2).length = (draggedPoints s lt2).length := by
  rw [on_drag]
  repeat' split
  all_goals try rfl
  all_goals dsimp only
  all_goals split
  all_goals try rfl
  all_goals simp only [draggedPoints]
  all_goals repeat' split
  all_goals first
    | rfl
    | simp [List.length_set, dictGetD_dictSetAt_length]

/-- All the drag bookkeeping and list lengths survive any sequence of
pointer-move events. -/
lemma foldl_on_drag_invariants (moves : List PointerEvent) (s : EditorState) :
    (moves.foldl on_drag s).hull.line_version = s.hull.line_version ∧
    (moves.foldl on_drag s).dragging = s.dragging ∧
    (moves.foldl on_drag s).dragged_idx = s.dragged_idx ∧
    (moves.foldl on_drag s).dragged_line_type = s.dragged_line_type ∧
    ∀ lt2, (draggedPoints (moves.foldl on_drag s) lt2).length =
      (draggedPoints s lt2).length := by
  induction moves generalizing s with
  | nil => exact ⟨rfl, rfl, rfl, rfl, fun _ => rfl⟩
  | cons m rest ih =>
    rw [List.foldl_cons]
    obtain ⟨b1, b2, b3, b4, b5⟩ := ih (on_drag s m)
    refine ⟨b1.trans (on_drag_version s m), b2.trans (on_drag_dragging s m),
      b3.trans (on_drag_dragged_idx s m), b4.trans (on_drag_dragged_line_type s m),
      fun lt2 => (b5 lt2).trans (on_drag_draggedPoints_length s m lt2)⟩

/-- on_release increments line_version by exactly 1 when a drag is in
progress on an in-range control point. -/
lemma on_release_increments (s : EditorState) (e : PointerEvent) (i : Nat) (lt : String)
    (hdrag : s.dragging = true) (hidx : s.dragged_idx = some i)
    (hlt : s.dragged_line_type = some lt)
    (hlen : i < (draggedPoints s lt).length) :
    (on_release s e).hull.line_version = s.hull.line_version + 1 := by
  rw [on_release, hidx, hlt]
  rw [if_pos ⟨hdrag, Option.some_ne_none i, Option.some_ne_none lt⟩]
  dsimp only
  rw [if_pos hlen]

/-- C9: drag_start (on_press) and dragging (on_drag) transitions never
change line_version, and a completed release of a dragged in-range
control point increments line_version by exactly 1, regardless of how
many intermediate dragging events occurred. -/
theorem drag_release_version (s : EditorState) (e : PointerEvent)
    (moves : List PointerEvent) (i : Nat) (lt : String)
    (hdrag : s.dragging = true)
    (hidx : s.dragged_idx = some i)
    (hlt : s.dragged_line_type = some lt)
    (hlen : i < (draggedPoints s lt).length) :
    (∀ (s2 : EditorState) (e2 : PointerEvent),
      (on_press s2 e2).hull.line_version = s2.hull.line_version ∧
      (on_drag s2 e2).hull.line_version = s2.hull.line_version) ∧
    (on_release (moves.foldl on_drag s) e).hull.line_version = s.hull.line_version + 1 := by
  refine ⟨fun s2 e2 => ⟨by rw [on_press_hull], on_drag_version s2 e2⟩, ?_⟩
  obtain ⟨b1, b2, b3, b4, b5⟩ := foldl_on_drag_invariants moves s
  have hrel := on_release_increments (moves.foldl on_drag s) e i lt
    (b2.trans hdrag) (b3.trans hidx) (b4.trans hlt)
    (by rw [b5 lt]; exact hlen)
  rw [hrel, b1]

/-- C9 witness: an in-progress drag of side-profile point 0, one
intermediate move, then release: version goes from 5 to exactly 6. -/
theorem drag_release_version_witness :
    ((⟨⟨[(0, 0), (1, 1)], [], [], 5⟩, true, some 0, some "side_profile",
        none, none, []⟩ : EditorState).dragging = true ∧
     (⟨⟨[(0, 0), (1, 1)], [], [], 5⟩, true, some 0, some "side_profile",
        none, none, []⟩ : EditorState).dragged_idx = some 0 ∧
     (⟨⟨[(0, 0), (1, 1)], [], [], 5⟩, true, some 0, some "side_profile",
        none, none, []⟩ : EditorState).dragged_line_type = some "side_profile" ∧
     0 < (draggedPoints ⟨⟨[(0, 0), (1, 1)], [], [], 5⟩, true, some 0,
        some "side_profile", none, none, []⟩ "side_profile").length) ∧
    ((∀ (s2 : EditorState) (e2 : PointerEvent),
      (on_press s2 e2).hull.line_version = s2.hull.line_version ∧
      (on_drag s2 e2).hull.line_version = s2.hull.line_version) ∧
    (on_release (([⟨1, true, some 2, some 2⟩] : List PointerEvent).foldl on_drag
        ⟨⟨[(0, 0), (1, 1)], [], [], 5⟩, true, some 0, some "side_profile",
          none, none, []⟩) ⟨1, true, some 2, some 2⟩).hull.line_version =
      (⟨⟨[(0, 0), (1, 1)], [], [], 5⟩, true, some 0, some "side_profile",
        none, none, []⟩ : EditorState).hull.line_version + 1) :=
  ⟨⟨rfl, rfl, rfl, by decide⟩,
    drag_release_version
      ⟨⟨[(0, 0), (1, 1)], [], [], 5⟩, true, some 0, some "side_profile", none, none, []⟩
      ⟨1, true, some 2, some 2⟩ [⟨1, true, some 2, some 2⟩] 0 "side_profile"
      rfl rfl rfl (by decide)⟩

/-- C7: for every closed-curve input with at least 3 control points (the
loop being closed by appending the first point when first and last differ
by more than 1e-10 in either coordinate), the periodic-spline path
returns exactly 100 points, while the linear fallback on fit failure
returns exactly 20 points per consecutive segment of the closed loop,
i.e. 20 * segmentCount points, not 100. -/
theorem closed_curve_point_counts (O : FitOracle) (points : PointList)
    (h3 : 3 ≤ points.length) :
    (∀ g, O.fitClosed (closeLoop points) = some g →
      (generate_closed_curve O points).length = 100) ∧
    (O.fitClosed (closeLoop points) = none →
      generate_closed_curve O points = linear_interpolation_closed (closeLoop points) ∧
      (generate_closed_curve O points).length =
        20 * ((closeLoop points).length - 1)) := by
  have hguard : ¬ points.length < 3 := by omega
  have hlen : 3 ≤ (closeLoop points).length :=
    le_trans h3 (length_le_closeLoop points)
  constructor
  · intro g hfit
    rw [generate_closed_curve, if_neg hguard]
    dsimp only
    rw [hfit, List.length_map, length_np_linspace]
  · intro hfit
    have hres : generate_closed_curve O points =
        linear_interpolation_closed (closeLoop points) := by
      rw [generate_closed_curve, if_neg hguard]
      dsimp only
      rw [hfit]
    refine ⟨hres, ?_⟩
    rw [hres, linear_interpolation_closed, if_neg (by omega), closeLoop_closeLoop,
      length_flatMap_segmentPoints, length_adjPairs]

/-- C7 witness: the open triangle (0,0),(1,0),(0,1) gets closed to a
4-point loop; with a failing fit oracle the fallback emits 20 * 3 = 60
points. -/
theorem closed_curve_point_counts_witness :
    (3 ≤ ([((0:ℚ), (0:ℚ)), (1, 0), (0, 1)] : PointList).length) ∧
    ((∀ g, noneOracle.fitClosed (closeLoop [((0:ℚ), (0:ℚ)), (1, 0), (0, 1)]) = some g →
      (generate_closed_curve noneOracle [(0, 0), (1, 0), (0, 1)]).length = 100) ∧
    (noneOracle.fitClosed (closeLoop [((0:ℚ), (0:ℚ)), (1, 0), (0, 1)]) = none →
      generate_closed_curve noneOracle [(0, 0), (1, 0), (0, 1)] =
        linear_interpolation_closed (closeLoop [(0, 0), (1, 0), (0, 1)]) ∧
      (generate_closed_curve noneOracle [((0:ℚ), (0:ℚ)), (1, 0), (0, 1)]).length =
        20 * ((closeLoop [((0:ℚ), (0:ℚ)), (1, 0), (0, 1)]).length - 1))) :=
  ⟨by decide, closed_curve_point_counts noneOracle [(0, 0), (1, 0), (0, 1)] (by decide)⟩
